import Mathlib

/-!
Shallow embedding of the makeprogress weekly goal tracker server
(src/server/routes.ts, src/server/storage.ts), together with proofs of the
behavioural claims about the achievement calculator, the week-start key,
the goal-selection and completion-toggle handlers, and the recommendation
scorer.
-/

/-! ## Date model

The server manipulates JS `Date` values only through `getDay` (local
day-of-week), `setDate` (civil-day arithmetic), and `setHours(0,0,0,0)`
(reset to local midnight).  We model a local date-time as a civil day index
(day 0 = 1970-01-01, a Thursday) plus milliseconds since local midnight. -/

def msPerDay : Nat := 86400000

structure LocalDateTime where
  day : Int
  msOfDay : Fin msPerDay
deriving DecidableEq, Repr

/-- Milliseconds-since-epoch view, used to compare two date-times the way
SQL timestamp comparison does. -/
def toMs (d : LocalDateTime) : Int :=
  d.day * (msPerDay : Int) + (d.msOfDay.val : Int)

/-- JS `Date.prototype.getDay`: 0 = Sunday .. 6 = Saturday.  Day 0
(1970-01-01) was a Thursday, i.e. day-of-week 4. -/
def getDay (d : LocalDateTime) : Int :=
  (d.day + 4) % 7

/-- JS `setDate(getDate() + n)`: shift by whole civil days, keeping the
time of day. -/
def addDays (d : LocalDateTime) (n : Int) : LocalDateTime :=
  { d with day := d.day + n }

def midnightEpoch : Fin msPerDay := ⟨0, by norm_num [msPerDay]⟩

/-- Embedding of `getWeekStart` (src/server/routes.ts): step back to the
most recent Monday and reset the clock to local midnight. -/
def getWeekStart (date : LocalDateTime) : LocalDateTime :=
  let dayOfWeek := getDay date
  let daysToMonday : Int := if dayOfWeek = 0 then 6 else dayOfWeek - 1
  { day := date.day - daysToMonday, msOfDay := midnightEpoch }

/-! ## Achievement calculator -/

/-- Embedding of `calculateAchievementLevel` (src/server/routes.ts). -/
def calculateAchievementLevel (categoriesCompleted : Nat) : String :=
  if categoriesCompleted ≥ 6 then "slayed"
  else if categoriesCompleted ≥ 4 then "rock"
  else if categoriesCompleted ≥ 2 then "track"
  else "none"

/-- Claim C1: for every completed-category count c with 0 ≤ c ≤ 6, the
achievement-tier function returns "none" if c < 2, "track" if 2 ≤ c ≤ 3,
"rock" if 4 ≤ c ≤ 5, and "slayed" if c = 6. -/
theorem C1_achievement_tier_thresholds (c : Nat) (h : c ≤ 6) :
    (c < 2 → calculateAchievementLevel c = "none") ∧
    (2 ≤ c → c ≤ 3 → calculateAchievementLevel c = "track") ∧
    (4 ≤ c → c ≤ 5 → calculateAchievementLevel c = "rock") ∧
    (c = 6 → calculateAchievementLevel c = "slayed") := by
  interval_cases c <;> refine ⟨?_, ?_, ?_, ?_⟩ <;> decide

/-- Witness for C1 at the concrete count 5. -/
theorem C1_achievement_tier_thresholds_witness :
    (5 < 2 → calculateAchievementLevel 5 = "none") ∧
    (2 ≤ 5 → 5 ≤ 3 → calculateAchievementLevel 5 = "track") ∧
    (4 ≤ 5 → 5 ≤ 5 → calculateAchievementLevel 5 = "rock") ∧
    (5 = 6 → calculateAchievementLevel 5 = "slayed") :=
  C1_achievement_tier_thresholds 5 (by decide)

/-- Claim C7: getWeekStart lands on a Monday (day-of-week 1) at local
midnight, covers its input (ws ≤ d < ws + 7 days), and is idempotent. -/
theorem C7_week_start_monday_idempotent (d : LocalDateTime) :
    getDay (getWeekStart d) = 1 ∧
    (getWeekStart d).msOfDay.val = 0 ∧
    toMs (getWeekStart d) ≤ toMs d ∧
    toMs d < toMs (getWeekStart d) + 7 * (msPerDay : Int) ∧
    getWeekStart (getWeekStart d) = getWeekStart d := by
  have hms : (d.msOfDay.val : Int) < (msPerDay : Int) := by
    exact_mod_cast d.msOfDay.isLt
  have hms0 : (0 : Int) ≤ (d.msOfDay.val : Int) := by positivity
  simp only [getWeekStart, getDay, toMs, midnightEpoch, msPerDay] at *
  constructor
  · split <;> omega
  constructor
  · trivial
  constructor
  · split <;> omega
  constructor
  · split <;> omega
  · have h1 : (d.day - (if (d.day + 4) % 7 = 0 then 6 else (d.day + 4) % 7 - 1) + 4) % 7 = 1 := by
      split <;> omega
    simp only [h1]
    norm_num

/-! ## Data model

Rows of the `user_goals` and `achievements` tables (src/shared/schema.ts),
and an application state.  A goal's category name is obtained through the
`goals ⋈ categories` join; since both tables are immutable after seeding we
model the join as a fixed map from goal id to category name. -/

structure UserGoalRow where
  id : Nat
  userId : String
  goalId : String
  weekStart : LocalDateTime
  completed : Bool
  completedAt : Option LocalDateTime
deriving DecidableEq, Repr

structure AchievementRow where
  userId : String
  weekStart : LocalDateTime
  categoriesCompleted : Nat
  level : String
deriving DecidableEq, Repr

structure AppState where
  goalCategory : String → Option String
  userGoals : List UserGoalRow
  achievements : List AchievementRow
  nextId : Nat

def emptyState : AppState :=
  { goalCategory := fun _ => none, userGoals := [], achievements := [], nextId := 0 }

/-! ## Category-completion counting

The PATCH /api/user-goals/:id/complete handler folds the week's joined
rows into a `Map<string, {completed, total}>` keyed by category name, then
counts the entries with `completed ≥ 2`.  A JS `Map` built by insertion is
an insertion-ordered association list. -/

structure CatStats where
  completed : Nat
  total : Nat
deriving DecidableEq, Repr

/-- One step of the handler's forEach: bump the stats entry for `name`,
inserting a fresh entry if the key is new. -/
def updateStats : List (String × CatStats) → String → Bool → List (String × CatStats)
  | [], name, isCompleted => [(name, ⟨if isCompleted then 1 else 0, 1⟩)]
  | (k, s) :: rest, name, isCompleted =>
    if k = name then
      (k, ⟨s.completed + (if isCompleted then 1 else 0), s.total + 1⟩) :: rest
    else
      (k, s) :: updateStats rest name isCompleted

/-- The handler's `categoryCompletions` map, built from the joined rows
(row, category-name pairs). -/
def categoryCompletions (rows : List (UserGoalRow × String)) : List (String × CatStats) :=
  rows.foldl (fun m r => updateStats m r.2 r.1.completed) []

/-- The handler's `categoriesCompleted` count: entries of the map with at
least 2 completed rows. -/
def countCategoriesCompleted (rows : List (UserGoalRow × String)) : Nat :=
  ((categoryCompletions rows).filter (fun p => 2 ≤ p.2.completed)).length

/-- Specification restatement for claim C3: the number of distinct
category names having at least 2 rows with `completed = true`. -/
def specCategoriesCompleted (rows : List (UserGoalRow × String)) : Nat :=
  ((rows.map Prod.snd).dedup.filter
    (fun n => 2 ≤ (rows.filter (fun r => r.2 == n && r.1.completed)).length)).length

/-- Invariant tying the handler's accumulator map to the rows already
processed: keys are exactly the category names seen so far, without
duplicates, and each entry's `completed` field counts that category's
completed rows. -/
def statsInv (m : List (String × CatStats)) (rows : List (UserGoalRow × String)) : Prop :=
  (m.map Prod.fst).Nodup ∧
  (∀ n : String, n ∈ m.map Prod.fst ↔ n ∈ rows.map Prod.snd) ∧
  (∀ p ∈ m, p.2.completed = rows.countP (fun r => r.2 == p.1 && r.1.completed))

theorem updateStats_keys (m : List (String × CatStats)) (n : String) (c : Bool) :
    (updateStats m n c).map Prod.fst =
      if n ∈ m.map Prod.fst then m.map Prod.fst else m.map Prod.fst ++ [n] := by
  induction m with
  | nil => simp [updateStats]
  | cons p rest ih =>
    obtain ⟨k, s⟩ := p
    by_cases hk : k = n
    · subst hk
      simp [updateStats]
    · simp only [updateStats, if_neg hk, List.map_cons, ih]
      by_cases hmem : n ∈ rest.map Prod.fst
      · simp [hmem, Ne.symm hk]
      · simp [hmem, Ne.symm hk]

theorem updateStats_mem_of (m : List (String × CatStats)) (n : String) (c : Bool)
    (hnd : (m.map Prod.fst).Nodup) :
    ∀ p ∈ updateStats m n c,
      (p.1 ≠ n ∧ p ∈ m) ∨
      (p.1 = n ∧ ((∃ s₀ : CatStats, (n, s₀) ∈ m ∧
          p.2 = ⟨s₀.completed + (if c then 1 else 0), s₀.total + 1⟩) ∨
        (¬ n ∈ m.map Prod.fst ∧ p.2 = ⟨(if c then 1 else 0), 1⟩))) := by
  revert hnd
  induction m with
  | nil =>
    intro _ p hp
    simp only [updateStats, List.mem_singleton] at hp
    subst hp
    exact Or.inr ⟨rfl, Or.inr ⟨by simp, rfl⟩⟩
  | cons q rest ih =>
    obtain ⟨k, s⟩ := q
    intro hnd p hp
    simp only [List.map_cons, List.nodup_cons] at hnd
    by_cases hk : k = n
    · subst hk
      simp only [updateStats, if_pos rfl, List.mem_cons] at hp
      cases hp with
      | head =>
        exact Or.inr ⟨rfl, Or.inl ⟨s, List.mem_cons_self _ _, rfl⟩⟩
      | tail _ h =>
        left
        refine ⟨?_, List.mem_cons_of_mem _ h⟩
        intro h1
        exact hnd.1 (h1 ▸ List.mem_map_of_mem Prod.fst h)
    · simp only [updateStats, if_neg hk, List.mem_cons] at hp
      cases hp with
      | inl h =>
        subst h
        exact Or.inl ⟨hk, List.mem_cons_self _ _⟩
      | inr h =>
        rcases ih hnd.2 p h with ⟨h1, h2⟩ | ⟨h1, h2⟩
        · exact Or.inl ⟨h1, List.mem_cons_of_mem _ h2⟩
        · refine Or.inr ⟨h1, ?_⟩
          rcases h2 with ⟨s₀, hs₀, hps⟩ | ⟨hfresh, hps⟩
          · exact Or.inl ⟨s₀, List.mem_cons_of_mem _ hs₀, hps⟩
          · refine Or.inr ⟨?_, hps⟩
            simp [Ne.symm hk, hfresh]

theorem statsInv_step (m : List (String × CatStats)) (rows : List (UserGoalRow × String))
    (row : UserGoalRow × String) (h : statsInv m rows) :
    statsInv (updateStats m row.2 row.1.completed) (rows ++ [row]) := by
  obtain ⟨hnd, hkeys, hcnt⟩ := h
  refine ⟨?_, ?_, ?_⟩
  · rw [updateStats_keys]
    split
    · exact hnd
    · next hout => simp [List.nodup_append, hnd, hout]
  · intro n'
    rw [updateStats_keys]
    split
    · next hin =>
      simp only [List.map_append, List.map_cons, List.map_nil, List.mem_append,
        List.mem_singleton]
      constructor
      · intro h1
        exact Or.inl ((hkeys n').mp h1)
      · rintro (h1 | h1)
        · exact (hkeys n').mpr h1
        · exact h1 ▸ hin
    · next hout =>
      simp only [List.map_append, List.map_cons, List.map_nil, List.mem_append,
        List.mem_singleton]
      rw [← hkeys n']
  · intro p hp
    rcases updateStats_mem_of m row.2 row.1.completed hnd p hp with ⟨hne, hpm⟩ | ⟨heq, hcase⟩
    · rw [hcnt p hpm, List.countP_append]
      have : (row.2 == p.1 && row.1.completed) = false := by
        simp [Ne.symm hne]
      simp [List.countP_cons, this]
    · rcases hcase with ⟨s₀, hs₀, hps⟩ | ⟨hfresh, hps⟩
      · have hc := hcnt (row.2, s₀) hs₀
        rw [List.countP_append, hps]
        simp only [heq] at *
        rw [hc]
        by_cases hcomp : row.1.completed
        · simp [List.countP_cons, hcomp]
        · simp [List.countP_cons, hcomp]
      · have hzero : rows.countP (fun r => r.2 == p.1 && r.1.completed) = 0 := by
          refine List.countP_eq_zero.mpr ?_
          intro r hr hpred
          simp only [Bool.and_eq_true, beq_iff_eq] at hpred
          apply hfresh
          rw [← heq, ← hpred.1]
          exact (hkeys r.2).mpr (List.mem_map_of_mem Prod.snd hr)
        rw [List.countP_append, hzero, hps]
        simp only [heq]
        by_cases hcomp : row.1.completed
        · simp [List.countP_cons, hcomp]
        · simp [List.countP_cons, hcomp]

theorem statsInv_foldl (rows : List (UserGoalRow × String)) :
    ∀ (pre : List (UserGoalRow × String)) (m : List (String × CatStats)),
      statsInv m pre →
      statsInv (rows.foldl (fun m r => updateStats m r.2 r.1.completed) m) (pre ++ rows) := by
  induction rows with
  | nil =>
    intro pre m h
    simpa using h
  | cons r rs ih =>
    intro pre m h
    have h1 := statsInv_step m pre r h
    have h2 := ih (pre ++ [r]) _ h1
    simpa [List.append_assoc] using h2

theorem statsInv_categoryCompletions (rows : List (UserGoalRow × String)) :
    statsInv (categoryCompletions rows) rows := by
  have h0 : statsInv [] [] := ⟨List.nodup_nil, by simp, by simp⟩
  have := statsInv_foldl rows [] [] h0
  simpa [categoryCompletions] using this

def mkJoinedRow (id : Nat) (cat : String) (c : Bool) : UserGoalRow × String :=
  ({ id := id, userId := "u1", goalId := "g", weekStart := ⟨0, midnightEpoch⟩,
     completed := c, completedAt := none }, cat)

/-- Example week from the spec: per-category completed counts
Personal 2, Health 2, Fun 1, all others 0 (two selected rows per category). -/
def exampleWeekRows : List (UserGoalRow × String) :=
  [mkJoinedRow 1 "Personal" true, mkJoinedRow 2 "Personal" true,
   mkJoinedRow 3 "Inner Peace" false, mkJoinedRow 4 "Inner Peace" false,
   mkJoinedRow 5 "Health" true, mkJoinedRow 6 "Health" true,
   mkJoinedRow 7 "Family" false, mkJoinedRow 8 "Family" false,
   mkJoinedRow 9 "Career" false, mkJoinedRow 10 "Career" false,
   mkJoinedRow 11 "Fun" true, mkJoinedRow 12 "Fun" false]

/-- Claim C3: the handler's categoriesCompleted equals the number of
distinct category names having at least 2 completed rows, and the spec's
example week (Personal 2, Health 2, Fun 1 completed) yields 2 completed
categories and tier "track". -/
theorem C3_categories_completed_count :
    (∀ rows : List (UserGoalRow × String),
        countCategoriesCompleted rows = specCategoriesCompleted rows) ∧
    countCategoriesCompleted exampleWeekRows = 2 ∧
    calculateAchievementLevel (countCategoriesCompleted exampleWeekRows) = "track" := by
  refine ⟨?_, by decide, by decide⟩
  intro rows
  obtain ⟨hnd, hkeys, hcnt⟩ := statsInv_categoryCompletions rows
  unfold countCategoriesCompleted specCategoriesCompleted
  simp only [← List.countP_eq_length_filter]
  have hperm : ((categoryCompletions rows).map Prod.fst).Perm (rows.map Prod.snd).dedup := by
    rw [List.perm_ext_iff_of_nodup hnd (List.nodup_dedup _)]
    intro n
    rw [hkeys n, List.mem_dedup]
  calc (categoryCompletions rows).countP (fun p => decide (2 ≤ p.2.completed))
      = (categoryCompletions rows).countP
          (fun p => decide (2 ≤ rows.countP (fun r => r.2 == p.1 && r.1.completed))) := by
        refine List.countP_congr ?_
        intro a ha
        rw [hcnt a ha]
    _ = ((categoryCompletions rows).map Prod.fst).countP
          (fun n => decide (2 ≤ rows.countP (fun r => r.2 == n && r.1.completed))) := by
        rw [List.countP_map]
        rfl
    _ = ((rows.map Prod.snd).dedup).countP
          (fun n => decide (2 ≤ rows.countP (fun r => r.2 == n && r.1.completed))) :=
        hperm.countP_eq _

/-! ## Storage operations (src/server/storage.ts) -/

/-- Embedding of `DatabaseStorage.getUserGoalsForWeek`: the user's rows
whose weekStart timestamp lies in [weekStart, weekStart + 6 days], joined
with their goal's category name (inner join drops rows whose goal id is
unknown). -/
def getUserGoalsForWeek (s : AppState) (userId : String) (weekStart : LocalDateTime) :
    List (UserGoalRow × String) :=
  let weekEnd := addDays weekStart 6
  (s.userGoals.filter fun r =>
      r.userId == userId && decide (toMs weekStart ≤ toMs r.weekStart) &&
        decide (toMs r.weekStart ≤ toMs weekEnd)).filterMap
    fun r => (s.goalCategory r.goalId).map fun n => (r, n)

/-- Embedding of `DatabaseStorage.selectUserGoals`: delete the user's rows
for that exact weekStart, then insert one fresh row per goal id with
`completed = false`.  Fresh primary keys come from `nextId`. -/
def selectUserGoals (s : AppState) (userId : String) (goalIds : List String)
    (weekStart : LocalDateTime) : AppState × List UserGoalRow :=
  let remaining := s.userGoals.filter fun r => !(r.userId == userId && r.weekStart == weekStart)
  let newRows := goalIds.enum.map fun p =>
    { id := s.nextId + p.1, userId := userId, goalId := p.2, weekStart := weekStart,
      completed := false, completedAt := none : UserGoalRow }
  ({ s with userGoals := remaining ++ newRows, nextId := s.nextId + goalIds.length }, newRows)

/-- Embedding of `DatabaseStorage.toggleGoalCompletion`: look the row up by
primary key, throw "User goal not found" if absent, otherwise invert its
`completed` flag and set `completedAt` to now (completing) or null
(un-completing). -/
def toggleGoalCompletion (db : List UserGoalRow) (userGoalId : Nat) (now : LocalDateTime) :
    Except String (UserGoalRow × List UserGoalRow) :=
  match db.find? (fun r => r.id == userGoalId) with
  | none => .error "User goal not found"
  | some existingGoal =>
    let isCompleting := !existingGoal.completed
    let upd := fun (r : UserGoalRow) =>
      if r.id = userGoalId then
        { r with completed := isCompleting,
                 completedAt := if isCompleting then some now else none }
      else r
    .ok (upd existingGoal, db.map upd)

/-! ## Route handlers (src/server/routes.ts) -/

/-- Achievement phase of PATCH /api/user-goals/:id/complete: recount the
week's completed categories and insert an Achievement row when none exists
for (user, week) and the computed tier is not "none". -/
def achievementPhase (s : AppState) (userId : String) (weekStart : LocalDateTime) : AppState :=
  let allUserGoals := getUserGoalsForWeek s userId weekStart
  let categoriesCompleted := countCategoriesCompleted allUserGoals
  let existingAchievement :=
    s.achievements.find? fun a => a.userId == userId && a.weekStart == weekStart
  let level := calculateAchievementLevel categoriesCompleted
  if existingAchievement = none ∧ level ≠ "none" then
    { s with achievements := s.achievements ++
        [{ userId := userId, weekStart := weekStart,
           categoriesCompleted := categoriesCompleted, level := level }] }
  else s

structure PatchResult where
  status : Nat
  state : AppState
  returnedGoal : Option UserGoalRow

/-- Embedding of the PATCH /api/user-goals/:id/complete handler: toggle the
row (a thrown "not found" is caught and answered with a 500), then run the
achievement phase for the authenticated user's current week. -/
def completeGoalHandler (s : AppState) (userId : String) (id : Nat) (now : LocalDateTime) :
    PatchResult :=
  match toggleGoalCompletion s.userGoals id now with
  | .error _ => { status := 500, state := s, returnedGoal := none }
  | .ok (updatedGoal, newGoals) =>
    let weekStart := getWeekStart now
    let s₂ := achievementPhase { s with userGoals := newGoals } userId weekStart
    { status := 200, state := s₂, returnedGoal := some updatedGoal }

/-- Embedding of the POST /api/user/select-goals handler: `goalIds = none`
models a request body whose goalIds is not an array; otherwise the handler
rejects any length other than 12 and runs `selectUserGoals`. -/
def selectGoalsHandler (s : AppState) (userId : String) (goalIds : Option (List String))
    (weekStart : LocalDateTime) : Nat × AppState :=
  match goalIds with
  | none => (400, s)
  | some gids =>
    if gids.length ≠ 12 then (400, s)
    else (200, (selectUserGoals s userId gids weekStart).1)

/-- Completed-category count of a user's week, as the toggle handler
computes it. -/
def weekCategoriesCompleted (s : AppState) (userId : String) (weekStart : LocalDateTime) : Nat :=
  countCategoriesCompleted (getUserGoalsForWeek s userId weekStart)

/-- Projection of a user-goal row to its (user, goal, week) identity,
ignoring the database-generated primary key and completion state. -/
def selectionKey (r : UserGoalRow) : String × String × LocalDateTime :=
  (r.userId, r.goalId, r.weekStart)

theorem enum_map_snd_comp {α β : Type} (l : List α) (g : α → β) :
    l.enum.map (fun p => g p.2) = l.map g := by
  rw [show (fun p : Nat × α => g p.2) = g ∘ Prod.snd from rfl, ← List.map_map,
    List.enum_map_snd]

theorem selectUserGoals_inserted_fields (st : AppState) (u : String) (gids : List String)
    (w : LocalDateTime) :
    ∀ r ∈ (selectUserGoals st u gids w).2,
      r.userId = u ∧ r.weekStart = w ∧ r.completed = false := by
  intro r hr
  simp only [selectUserGoals, List.mem_map] at hr
  obtain ⟨p, _, rfl⟩ := hr
  exact ⟨rfl, rfl, rfl⟩

theorem selectUserGoals_inserted_keys (st : AppState) (u : String) (gids : List String)
    (w : LocalDateTime) :
    (selectUserGoals st u gids w).2.map selectionKey = gids.map (fun g => (u, g, w)) := by
  simp only [selectUserGoals]
  rw [List.map_map]
  exact enum_map_snd_comp gids (fun g => (u, g, w))

/-- Claim C4: selectUserGoals deletes the user's rows for that exact week
then inserts one completed = false row per submitted goal id, so
re-submitting the same 12 ids is idempotent on the (user, goal, week) row
set while resetting every completion flag for that week to false. -/
theorem C4_select_goals_idempotent (s : AppState) (u : String) (gids : List String)
    (w : LocalDateTime) (h12 : gids.length = 12) :
    ((selectUserGoals s u gids w).2.map
        (fun r => (r.userId, r.goalId, r.weekStart, r.completed)) =
      gids.map (fun g => (u, g, w, false))) ∧
    ((selectUserGoals s u gids w).1.userGoals =
      s.userGoals.filter (fun r => !(r.userId == u && r.weekStart == w)) ++
        (selectUserGoals s u gids w).2) ∧
    ((selectUserGoals (selectUserGoals s u gids w).1 u gids w).1.userGoals.map selectionKey =
      (selectUserGoals s u gids w).1.userGoals.map selectionKey) ∧
    (∀ r ∈ (selectUserGoals (selectUserGoals s u gids w).1 u gids w).1.userGoals,
      r.userId = u → r.weekStart = w → r.completed = false) := by
  have hfields := selectUserGoals_inserted_fields
  have hfilter_new : ∀ st : AppState,
      (selectUserGoals st u gids w).2.filter
        (fun r => !(r.userId == u && r.weekStart == w)) = [] := by
    intro st
    rw [List.filter_eq_nil_iff]
    intro r hr
    obtain ⟨h1, h2, _⟩ := hfields st u gids w r hr
    simp [h1, h2]
  have hs₁ : (selectUserGoals s u gids w).1.userGoals =
      s.userGoals.filter (fun r => !(r.userId == u && r.weekStart == w)) ++
        (selectUserGoals s u gids w).2 := rfl
  have hs₂ : (selectUserGoals (selectUserGoals s u gids w).1 u gids w).1.userGoals =
      (selectUserGoals s u gids w).1.userGoals.filter
          (fun r => !(r.userId == u && r.weekStart == w)) ++
        (selectUserGoals (selectUserGoals s u gids w).1 u gids w).2 := rfl
  have hff : (selectUserGoals s u gids w).1.userGoals.filter
      (fun r => !(r.userId == u && r.weekStart == w)) =
      s.userGoals.filter (fun r => !(r.userId == u && r.weekStart == w)) := by
    rw [hs₁, List.filter_append, hfilter_new s, List.append_nil, List.filter_filter]
    simp
  refine ⟨?_, hs₁, ?_, ?_⟩
  · simp only [selectUserGoals]
    rw [List.map_map]
    exact enum_map_snd_comp gids (fun g => (u, g, w, false))
  · rw [hs₂, hff, hs₁, List.map_append, List.map_append,
      selectUserGoals_inserted_keys (selectUserGoals s u gids w).1 u gids w,
      selectUserGoals_inserted_keys s u gids w]
  · intro r hr hu hw
    rw [hs₂] at hr
    rcases List.mem_append.mp hr with hr | hr
    · have := List.of_mem_filter hr
      simp [hu, hw] at this
    · exact (hfields _ u gids w r hr).2.2

/-- Witness for C4 on the empty state and 12 copies of one goal id. -/
theorem C4_select_goals_idempotent_witness :
    (List.replicate 12 "g1").length = 12 ∧
    (((selectUserGoals emptyState "u1" (List.replicate 12 "g1")
        ⟨0, midnightEpoch⟩).2.map
          (fun r => (r.userId, r.goalId, r.weekStart, r.completed)) =
      (List.replicate 12 "g1").map (fun g => ("u1", g, ⟨0, midnightEpoch⟩, false))) ∧
    ((selectUserGoals emptyState "u1" (List.replicate 12 "g1") ⟨0, midnightEpoch⟩).1.userGoals =
      emptyState.userGoals.filter
          (fun r => !(r.userId == "u1" && r.weekStart == ⟨0, midnightEpoch⟩)) ++
        (selectUserGoals emptyState "u1" (List.replicate 12 "g1") ⟨0, midnightEpoch⟩).2) ∧
    ((selectUserGoals (selectUserGoals emptyState "u1" (List.replicate 12 "g1")
          ⟨0, midnightEpoch⟩).1 "u1" (List.replicate 12 "g1")
          ⟨0, midnightEpoch⟩).1.userGoals.map selectionKey =
      (selectUserGoals emptyState "u1" (List.replicate 12 "g1")
          ⟨0, midnightEpoch⟩).1.userGoals.map selectionKey) ∧
    (∀ r ∈ (selectUserGoals (selectUserGoals emptyState "u1" (List.replicate 12 "g1")
          ⟨0, midnightEpoch⟩).1 "u1" (List.replicate 12 "g1")
          ⟨0, midnightEpoch⟩).1.userGoals,
      r.userId = "u1" → r.weekStart = ⟨0, midnightEpoch⟩ → r.completed = false)) :=
  ⟨by decide,
   C4_select_goals_idempotent emptyState "u1" (List.replicate 12 "g1")
     ⟨0, midnightEpoch⟩ (by decide)⟩

/-- Claim C5: POST /api/user/select-goals answers 400 exactly when goalIds
is not an array of exactly 12 elements; any 12-element list is accepted
(status 200), with no server-side check that the ids are valid goal ids or
map to 2 goals per category — witnessed below by 12 copies of one id
unknown to the catalog. -/
theorem C5_select_goals_validation (s : AppState) (u : String) (w : LocalDateTime) :
    (selectGoalsHandler s u none w).1 = 400 ∧
    (∀ gids : List String, gids.length ≠ 12 → (selectGoalsHandler s u (some gids) w).1 = 400) ∧
    (∀ gids : List String, gids.length = 12 → (selectGoalsHandler s u (some gids) w).1 = 200) := by
  refine ⟨rfl, ?_, ?_⟩
  · intro gids hne
    simp [selectGoalsHandler, hne]
  · intro gids heq
    simp [selectGoalsHandler, heq]

/-- Witness for C5: 12 copies of a goal id that does not exist in the
catalog (emptyState has no goals) and is certainly not 2 per category are
accepted with status 200. -/
theorem C5_select_goals_validation_witness :
    (selectGoalsHandler emptyState "u1" none ⟨0, midnightEpoch⟩).1 = 400 ∧
    ((List.replicate 11 "bogus").length ≠ 12 ∧
      (selectGoalsHandler emptyState "u1" (some (List.replicate 11 "bogus"))
        ⟨0, midnightEpoch⟩).1 = 400) ∧
    ((List.replicate 12 "bogus").length = 12 ∧
      (selectGoalsHandler emptyState "u1" (some (List.replicate 12 "bogus"))
        ⟨0, midnightEpoch⟩).1 = 200) :=
  ⟨(C5_select_goals_validation emptyState "u1" ⟨0, midnightEpoch⟩).1,
   ⟨by decide,
    (C5_select_goals_validation emptyState "u1" ⟨0, midnightEpoch⟩).2.1
      (List.replicate 11 "bogus") (by decide)⟩,
   ⟨by decide,
    (C5_select_goals_validation emptyState "u1" ⟨0, midnightEpoch⟩).2.2
      (List.replicate 12 "bogus") (by decide)⟩⟩

/-- Counterexample to claim C6 as stated: toggling a non-existent user-goal
id is answered with a 500 (the storage layer's thrown "User goal not found"
falls into the handler's generic catch), not with a 404. -/
theorem C6_not_found_counterexample :
    (completeGoalHandler emptyState "u1" 0 ⟨0, midnightEpoch⟩).status = 500 ∧
    (completeGoalHandler emptyState "u1" 0 ⟨0, midnightEpoch⟩).status ≠ 404 := by
  constructor <;> decide

/-- Claim C6 amended: for an id identifying no row, the PATCH handler fails
with status 500 (not 404), no row is modified and no Achievement row is
created (the state is returned unchanged). -/
theorem C6_not_found_error (s : AppState) (u : String) (id : Nat) (now : LocalDateTime)
    (h : ∀ r ∈ s.userGoals, r.id ≠ id) :
    (completeGoalHandler s u id now).status = 500 ∧
    (completeGoalHandler s u id now).state.userGoals = s.userGoals ∧
    (completeGoalHandler s u id now).state.achievements = s.achievements ∧
    (completeGoalHandler s u id now).returnedGoal = none := by
  have hfind : s.userGoals.find? (fun r => r.id == id) = none := by
    rw [List.find?_eq_none]
    intro r hr
    simpa using h r hr
  simp [completeGoalHandler, toggleGoalCompletion, hfind]

/-- Witness for C6 amended, on the empty state. -/
theorem C6_not_found_error_witness :
    (∀ r ∈ emptyState.userGoals, r.id ≠ 0) ∧
    ((completeGoalHandler emptyState "u1" 0 ⟨0, midnightEpoch⟩).status = 500 ∧
      (completeGoalHandler emptyState "u1" 0 ⟨0, midnightEpoch⟩).state.userGoals =
        emptyState.userGoals ∧
      (completeGoalHandler emptyState "u1" 0 ⟨0, midnightEpoch⟩).state.achievements =
        emptyState.achievements ∧
      (completeGoalHandler emptyState "u1" 0 ⟨0, midnightEpoch⟩).returnedGoal = none) :=
  ⟨by simp [emptyState],
   C6_not_found_error emptyState "u1" 0 ⟨0, midnightEpoch⟩ (by simp [emptyState])⟩

theorem find_row_of_nodup_ids (db : List UserGoalRow) (r : UserGoalRow)
    (hmem : r ∈ db) (hnodup : (db.map (fun x => x.id)).Nodup) :
    db.find? (fun x => x.id == r.id) = some r := by
  induction db with
  | nil => cases hmem
  | cons a rest ih =>
    simp only [List.map_cons, List.nodup_cons] at hnodup
    cases hmem with
    | head => simp [List.find?]
    | tail _ hmem =>
      have hne : ¬ a.id = r.id := by
        intro h
        exact hnodup.1 (h ▸ List.mem_map_of_mem (fun x => x.id) hmem)
      have hb : (a.id == r.id) = false := by simpa using hne
      simp only [List.find?, hb]
      exact ih hmem hnodup.2

theorem achievementPhase_userGoals (s : AppState) (u : String) (w : LocalDateTime) :
    (achievementPhase s u w).userGoals = s.userGoals := by
  dsimp only [achievementPhase]
  split <;> rfl

theorem achievementPhase_goalCategory (s : AppState) (u : String) (w : LocalDateTime) :
    (achievementPhase s u w).goalCategory = s.goalCategory := by
  dsimp only [achievementPhase]
  split <;> rfl

/-- Claim C9: the toggle handler does no ownership check.  For any existing
row r and ANY authenticated user u — in particular one different from r's
owner — PATCH with r's id succeeds with 200, inverts r's completed flag,
sets completedAt to the fresh timestamp when completing and null when
un-completing, and the toggle outcome (status, returned row, user_goals
table) is identical for every caller u. -/
theorem C9_toggle_no_ownership_check (s : AppState) (u : String) (r : UserGoalRow)
    (now : LocalDateTime) (hmem : r ∈ s.userGoals)
    (hnodup : (s.userGoals.map (fun x => x.id)).Nodup) :
    (completeGoalHandler s u r.id now).status = 200 ∧
    (completeGoalHandler s u r.id now).returnedGoal =
      some { r with completed := !r.completed,
                    completedAt := if !r.completed then some now else none } ∧
    { r with completed := !r.completed,
             completedAt := if !r.completed then some now else none }
        ∈ (completeGoalHandler s u r.id now).state.userGoals ∧
    (∀ u' : String,
      (completeGoalHandler s u' r.id now).status = (completeGoalHandler s u r.id now).status ∧
      (completeGoalHandler s u' r.id now).returnedGoal =
        (completeGoalHandler s u r.id now).returnedGoal ∧
      (completeGoalHandler s u' r.id now).state.userGoals =
        (completeGoalHandler s u r.id now).state.userGoals) := by
  have hfind := find_row_of_nodup_ids s.userGoals r hmem hnodup
  have hstate : ∀ u' : String, (completeGoalHandler s u' r.id now).status = 200 ∧
      (completeGoalHandler s u' r.id now).returnedGoal =
        some { r with completed := !r.completed,
                      completedAt := if !r.completed then some now else none } ∧
      (completeGoalHandler s u' r.id now).state.userGoals =
        s.userGoals.map (fun x => if x.id = r.id then
          { x with completed := !r.completed,
                   completedAt := if !r.completed then some now else none }
        else x) := by
    intro u'
    simp only [completeGoalHandler, toggleGoalCompletion, hfind]
    refine ⟨by simp, by simp, ?_⟩
    rw [achievementPhase_userGoals]
  refine ⟨(hstate u).1, (hstate u).2.1, ?_, ?_⟩
  · rw [(hstate u).2.2]
    have hmap : { r with completed := !r.completed,
                         completedAt := if !r.completed then some now else none } =
        (fun x : UserGoalRow => if x.id = r.id then
          { x with completed := !r.completed,
                   completedAt := if !r.completed then some now else none }
        else x) r := by simp
    rw [hmap]
    exact List.mem_map_of_mem _ hmem
  · intro u'
    exact ⟨(hstate u').1.trans (hstate u).1.symm,
      (hstate u').2.1.trans (hstate u).2.1.symm,
      (hstate u').2.2.trans (hstate u).2.2.symm⟩

def sampleRow : UserGoalRow :=
  { id := 1, userId := "owner", goalId := "g1", weekStart := ⟨0, midnightEpoch⟩,
    completed := false, completedAt := none }

def sampleState : AppState :=
  { goalCategory := fun _ => none, userGoals := [sampleRow], achievements := [], nextId := 2 }

/-- Witness for C9: the user "intruder", who does not own sampleRow, still
toggles it successfully. -/
theorem C9_toggle_no_ownership_check_witness :
    sampleRow ∈ sampleState.userGoals ∧
    (sampleState.userGoals.map (fun x => x.id)).Nodup ∧
    "intruder" ≠ sampleRow.userId ∧
    ((completeGoalHandler sampleState "intruder" sampleRow.id ⟨0, midnightEpoch⟩).status = 200 ∧
     (completeGoalHandler sampleState "intruder" sampleRow.id ⟨0, midnightEpoch⟩).returnedGoal =
       some { sampleRow with completed := !sampleRow.completed,
                             completedAt :=
                               if !sampleRow.completed then some ⟨0, midnightEpoch⟩ else none } ∧
     { sampleRow with completed := !sampleRow.completed,
                      completedAt :=
                        if !sampleRow.completed then some ⟨0, midnightEpoch⟩ else none }
         ∈ (completeGoalHandler sampleState "intruder" sampleRow.id
             ⟨0, midnightEpoch⟩).state.userGoals ∧
     (∀ u' : String,
       (completeGoalHandler sampleState u' sampleRow.id ⟨0, midnightEpoch⟩).status =
         (completeGoalHandler sampleState "intruder" sampleRow.id ⟨0, midnightEpoch⟩).status ∧
       (completeGoalHandler sampleState u' sampleRow.id ⟨0, midnightEpoch⟩).returnedGoal =
         (completeGoalHandler sampleState "intruder" sampleRow.id
           ⟨0, midnightEpoch⟩).returnedGoal ∧
       (completeGoalHandler sampleState u' sampleRow.id ⟨0, midnightEpoch⟩).state.userGoals =
         (completeGoalHandler sampleState "intruder" sampleRow.id
           ⟨0, midnightEpoch⟩).state.userGoals)) :=
  ⟨by decide, by decide, by decide,
   C9_toggle_no_ownership_check sampleState "intruder" sampleRow ⟨0, midnightEpoch⟩
     (by decide) (by decide)⟩

/-! ## Achievement invariants (claims C2 and C10) -/

theorem achievementPhase_achievements (s : AppState) (u : String) (w : LocalDateTime) :
    (achievementPhase s u w).achievements =
      if (s.achievements.find? (fun a => a.userId == u && a.weekStart == w)) = none
          ∧ calculateAchievementLevel (weekCategoriesCompleted s u w) ≠ "none" then
        s.achievements ++
          [{ userId := u, weekStart := w,
             categoriesCompleted := weekCategoriesCompleted s u w,
             level := calculateAchievementLevel (weekCategoriesCompleted s u w) }]
      else s.achievements := by
  dsimp only [achievementPhase, weekCategoriesCompleted]
  split <;> rfl

theorem weekCategoriesCompleted_achievementPhase (s : AppState) (u u' : String)
    (w w' : LocalDateTime) :
    weekCategoriesCompleted (achievementPhase s u' w') u w = weekCategoriesCompleted s u w := by
  unfold weekCategoriesCompleted getUserGoalsForWeek
  rw [achievementPhase_userGoals, achievementPhase_goalCategory]

theorem calculateAchievementLevel_ne_none_iff (c : Nat) :
    calculateAchievementLevel c ≠ "none" ↔ 2 ≤ c := by
  unfold calculateAchievementLevel
  rcases Nat.lt_or_ge c 2 with h | h
  · rw [if_neg (by omega), if_neg (by omega), if_neg (by omega)]
    simpa using h
  · constructor
    · intro _
      exact h
    · intro _
      split_ifs <;> first | decide | omega

theorem calculateAchievementLevel_mem_of_two_le (c : Nat) (h : 2 ≤ c) :
    calculateAchievementLevel c = "track" ∨ calculateAchievementLevel c = "rock" ∨
      calculateAchievementLevel c = "slayed" := by
  unfold calculateAchievementLevel
  split_ifs <;> first | simp | omega

theorem countP_zero_of_find?_none {α : Type} (p : α → Bool) (l : List α)
    (h : l.find? p = none) : l.countP p = 0 :=
  List.countP_eq_zero.mpr (List.find?_eq_none.mp h)

/-- Invariant: for every (user, week) key, at most one Achievement row. -/
def atMostOneAchievementPerWeek (s : AppState) : Prop :=
  ∀ (u : String) (w : LocalDateTime),
    s.achievements.countP (fun a => a.userId == u && a.weekStart == w) ≤ 1

theorem selectGoalsHandler_achievements (s : AppState) (u : String)
    (gids : Option (List String)) (w : LocalDateTime) :
    (selectGoalsHandler s u gids w).2.achievements = s.achievements := by
  cases gids with
  | none => rfl
  | some g =>
    dsimp only [selectGoalsHandler]
    split <;> rfl

/-- Claim C2: the toggle handler never updates or deletes existing
Achievement rows (the old list is always a prefix of the new one), it
inserts a row exactly when no (user, week) row exists and the computed
tier is not "none", the inserted row records exactly that tier and count,
and as a consequence at most one Achievement row per (user, week) ever
exists. -/
theorem C2_achievement_at_most_once (s : AppState) (u : String) (id : Nat)
    (now : LocalDateTime) (hinv : atMostOneAchievementPerWeek s) :
    atMostOneAchievementPerWeek (completeGoalHandler s u id now).state ∧
    (∃ rest, (completeGoalHandler s u id now).state.achievements = s.achievements ++ rest) ∧
    ((completeGoalHandler s u id now).status = 200 →
      ((completeGoalHandler s u id now).state.achievements ≠ s.achievements ↔
        (s.achievements.find?
            (fun a => a.userId == u && a.weekStart == getWeekStart now) = none ∧
          calculateAchievementLevel
            (weekCategoriesCompleted (completeGoalHandler s u id now).state u
              (getWeekStart now)) ≠ "none"))) ∧
    ((completeGoalHandler s u id now).state.achievements ≠ s.achievements →
      (completeGoalHandler s u id now).state.achievements = s.achievements ++
        [{ userId := u, weekStart := getWeekStart now,
           categoriesCompleted :=
             weekCategoriesCompleted (completeGoalHandler s u id now).state u
               (getWeekStart now),
           level := calculateAchievementLevel
             (weekCategoriesCompleted (completeGoalHandler s u id now).state u
               (getWeekStart now)) }]) := by
  unfold completeGoalHandler
  cases htog : toggleGoalCompletion s.userGoals id now with
  | error e =>
    refine ⟨hinv, ⟨[], by simp⟩, ?_, ?_⟩
    · intro habs
      simp at habs
    · intro habs
      exact absurd rfl habs
  | ok pr =>
    obtain ⟨g, newGoals⟩ := pr
    dsimp only
    set s₁ : AppState := { s with userGoals := newGoals } with hs₁
    set w : LocalDateTime := getWeekStart now with hw
    have hach : s₁.achievements = s.achievements := rfl
    have hwc : weekCategoriesCompleted (achievementPhase s₁ u w) u w =
        weekCategoriesCompleted s₁ u w :=
      weekCategoriesCompleted_achievementPhase s₁ u u w w
    have hphase := achievementPhase_achievements s₁ u w
    rw [hach] at hphase
    by_cases hcond : (s.achievements.find?
        (fun a => a.userId == u && a.weekStart == w) = none ∧
        calculateAchievementLevel (weekCategoriesCompleted s₁ u w) ≠ "none")
    · rw [if_pos hcond] at hphase
      have hne : (achievementPhase s₁ u w).achievements ≠ s.achievements := by
        rw [hphase]
        intro habs
        have := congrArg List.length habs
        simp at this
      refine ⟨?_, ⟨_, hphase⟩, ?_, ?_⟩
      · intro u₂ w₂
        rw [hphase, List.countP_append]
        by_cases hkey : u = u₂ ∧ w = w₂
        · obtain ⟨rfl, rfl⟩ := hkey
          have h0 : s.achievements.countP
              (fun a => a.userId == u && a.weekStart == w) = 0 :=
            countP_zero_of_find?_none _ _ hcond.1
          rw [h0]
          simp [List.countP_cons]
        · have h1 : List.countP (fun a => a.userId == u₂ && a.weekStart == w₂)
              [AchievementRow.mk u w (weekCategoriesCompleted s₁ u w)
                (calculateAchievementLevel (weekCategoriesCompleted s₁ u w))] = 0 := by
            rcases not_and_or.mp hkey with h | h <;> simp [List.countP_cons, h]
          rw [h1, Nat.add_zero]
          exact hinv u₂ w₂
      · intro _
        rw [hwc]
        exact ⟨fun _ => hcond, fun _ => hne⟩
      · intro _
        rw [hwc]
        exact hphase
    · rw [if_neg hcond] at hphase
      refine ⟨?_, ⟨[], by rw [hphase, List.append_nil]⟩, ?_, ?_⟩
      · intro u₂ w₂
        rw [hphase]
        exact hinv u₂ w₂
      · intro _
        rw [hwc, hphase]
        simp only [ne_eq, not_true_eq_false, false_iff]
        exact hcond
      · intro habs
        exact absurd hphase habs

/-- Witness for C2 on the empty state (no rows, so the toggle fails and the
achievements table stays empty). -/
theorem C2_achievement_at_most_once_witness :
    atMostOneAchievementPerWeek emptyState ∧
    (atMostOneAchievementPerWeek
        (completeGoalHandler emptyState "u1" 0 ⟨0, midnightEpoch⟩).state ∧
      (∃ rest, (completeGoalHandler emptyState "u1" 0 ⟨0, midnightEpoch⟩).state.achievements =
        emptyState.achievements ++ rest) ∧
      ((completeGoalHandler emptyState "u1" 0 ⟨0, midnightEpoch⟩).status = 200 →
        ((completeGoalHandler emptyState "u1" 0 ⟨0, midnightEpoch⟩).state.achievements ≠
            emptyState.achievements ↔
          (emptyState.achievements.find?
              (fun a => a.userId == "u1" &&
                a.weekStart == getWeekStart ⟨0, midnightEpoch⟩) = none ∧
            calculateAchievementLevel
              (weekCategoriesCompleted
                (completeGoalHandler emptyState "u1" 0 ⟨0, midnightEpoch⟩).state "u1"
                (getWeekStart ⟨0, midnightEpoch⟩)) ≠ "none"))) ∧
      ((completeGoalHandler emptyState "u1" 0 ⟨0, midnightEpoch⟩).state.achievements ≠
          emptyState.achievements →
        (completeGoalHandler emptyState "u1" 0 ⟨0, midnightEpoch⟩).state.achievements =
          emptyState.achievements ++
          [{ userId := "u1", weekStart := getWeekStart ⟨0, midnightEpoch⟩,
             categoriesCompleted :=
               weekCategoriesCompleted
                 (completeGoalHandler emptyState "u1" 0 ⟨0, midnightEpoch⟩).state "u1"
                 (getWeekStart ⟨0, midnightEpoch⟩),
             level := calculateAchievementLevel
               (weekCategoriesCompleted
                 (completeGoalHandler emptyState "u1" 0 ⟨0, midnightEpoch⟩).state "u1"
                 (getWeekStart ⟨0, midnightEpoch⟩)) }])) :=
  ⟨fun _ _ => by simp [emptyState],
   C2_achievement_at_most_once emptyState "u1" 0 ⟨0, midnightEpoch⟩
     (fun _ _ => by simp [emptyState])⟩

/-- Well-formedness of a stored Achievement row as claim C10 states it: a
non-"none" tier and at least 2 completed categories. -/
def goodAchievement (a : AchievementRow) : Prop :=
  (a.level = "track" ∨ a.level = "rock" ∨ a.level = "slayed") ∧ 2 ≤ a.categoriesCompleted

/-- Claim C10: every Achievement row the completion-toggle handler creates
has level in {"track", "rock", "slayed"} and categoriesCompleted ≥ 2, and
the invariant is preserved by both state-mutating operations, since no code
path rewrites an existing Achievement row. -/
theorem C10_achievement_rows_well_formed (s : AppState)
    (hinv : ∀ a ∈ s.achievements, goodAchievement a)
    (u : String) (id : Nat) (now : LocalDateTime)
    (u₂ : String) (gids : Option (List String)) (w₂ : LocalDateTime) :
    (∀ a ∈ (completeGoalHandler s u id now).state.achievements, goodAchievement a) ∧
    (∀ a ∈ (selectGoalsHandler s u₂ gids w₂).2.achievements, goodAchievement a) := by
  constructor
  · unfold completeGoalHandler
    cases htog : toggleGoalCompletion s.userGoals id now with
    | error e => exact hinv
    | ok pr =>
      obtain ⟨g, newGoals⟩ := pr
      dsimp only
      set s₁ : AppState := { s with userGoals := newGoals } with hs₁
      set w : LocalDateTime := getWeekStart now with hw
      have hphase := achievementPhase_achievements s₁ u w
      intro a ha
      rw [hphase] at ha
      split at ha
      · next hcond =>
        rcases List.mem_append.mp ha with ha | ha
        · exact hinv a ha
        · have hrow := List.mem_singleton.mp ha
          subst hrow
          have h2 : 2 ≤ weekCategoriesCompleted s₁ u w :=
            (calculateAchievementLevel_ne_none_iff _).mp hcond.2
          exact ⟨calculateAchievementLevel_mem_of_two_le _ h2, h2⟩
      · exact hinv a ha
  · rw [selectGoalsHandler_achievements]
    exact hinv

/-- Witness for C10 on the empty state. -/
theorem C10_achievement_rows_well_formed_witness :
    (∀ a ∈ emptyState.achievements, goodAchievement a) ∧
    ((∀ a ∈ (completeGoalHandler emptyState "u1" 0 ⟨0, midnightEpoch⟩).state.achievements,
        goodAchievement a) ∧
      (∀ a ∈ (selectGoalsHandler emptyState "u2" (some (List.replicate 12 "g1"))
          ⟨0, midnightEpoch⟩).2.achievements, goodAchievement a)) :=
  ⟨by simp [emptyState],
   C10_achievement_rows_well_formed emptyState (by simp [emptyState]) "u1" 0
     ⟨0, midnightEpoch⟩ "u2" (some (List.replicate 12 "g1")) ⟨0, midnightEpoch⟩⟩

/-! ## Recommendation scorer (claim C8)

The storage method `getGoalRecommendations` is called from the
GET /api/goals/recommendations route, but its implementation is not among
the provided server sources; the definitions below are therefore modelled
from spec section 4.2. -/

/-- Modelled from the spec: the per-candidate signals section 4.2 gathers
for `getGoalRecommendations` (whose implementation is missing from the
sources) — the user's attempt/completion history for the goal and its
category, recent category activity, global aggregates, and goal
metadata. -/
structure CandidateSignals where
  attempts : Nat
  completions : Nat
  categoryAttempts : Nat
  categoryCompletions : Nat
  recentCategoryActivity : Bool
  globalAttempts : Nat
  globalCompletions : Nat
  isCustom : Bool
  belowAverageCategoryFrequency : Bool
deriving DecidableEq, Repr

/-- Modelled from the spec: the additive score of section 4.2 — new-goal
bonus, completion-ratio reward, failed-attempts penalty, category history,
recent-activity bonus, global popularity, custom-goal bonus and diversity
bonus. -/
def signalSum (g : CandidateSignals) : ℚ :=
  (if g.attempts = 0 then 20 else 0) +
  (if g.attempts > 0 ∧ g.completions ≥ 1 then
    ((g.completions : ℚ) / (g.attempts : ℚ)) * 15 else 0) +
  (if g.attempts > 0 ∧ g.completions = 0 then -5 else 0) +
  (if g.categoryAttempts > 0 then
    ((g.categoryCompletions : ℚ) / (g.categoryAttempts : ℚ)) * 10 else 0) +
  (if g.recentCategoryActivity then 5 else 0) +
  (if g.globalAttempts > 0 then
    ((g.globalCompletions : ℚ) / (g.globalAttempts : ℚ)) * 8 else 0) +
  (if g.isCustom then 5 else 0) +
  (if g.belowAverageCategoryFrequency then 3 else 0)

/-- Modelled from the spec: score floored at 0. -/
def recommendationScore (g : CandidateSignals) : ℚ :=
  max 0 (signalSum g)

/-- Modelled from the spec: score every candidate, sort descending by
score, and truncate to 6 entries when a category filter was given, else
12. -/
def getGoalRecommendations (candidates : List CandidateSignals)
    (categoryFilterGiven : Bool) : List (CandidateSignals × ℚ) :=
  ((candidates.map fun g => (g, recommendationScore g)).mergeSort
      fun a b => decide (b.2 ≤ a.2)).take (if categoryFilterGiven then 6 else 12)

/-- Claim C8: every recommendation produced by the scorer carries a
score ≥ 0, for any input history. -/
theorem C8_recommendation_score_nonneg (candidates : List CandidateSignals)
    (categoryFilterGiven : Bool) (p : CandidateSignals × ℚ)
    (hp : p ∈ getGoalRecommendations candidates categoryFilterGiven) :
    0 ≤ p.2 := by
  have h1 : p ∈ (candidates.map fun g => (g, recommendationScore g)).mergeSort
      (fun a b => decide (b.2 ≤ a.2)) := List.mem_of_mem_take hp
  have h2 : p ∈ candidates.map fun g => (g, recommendationScore g) :=
    (List.mergeSort_perm _ _).mem_iff.mp h1
  obtain ⟨g, _, rfl⟩ := List.mem_map.mp h2
  exact le_max_left 0 (signalSum g)

def freshCandidate : CandidateSignals :=
  { attempts := 0, completions := 0, categoryAttempts := 0, categoryCompletions := 0,
    recentCategoryActivity := false, globalAttempts := 0, globalCompletions := 0,
    isCustom := false, belowAverageCategoryFrequency := false }

/-- Witness for C8: a single never-attempted candidate under a category
filter. -/
theorem C8_recommendation_score_nonneg_witness :
    (freshCandidate, recommendationScore freshCandidate) ∈
      getGoalRecommendations [freshCandidate] true ∧
    0 ≤ (freshCandidate, recommendationScore freshCandidate).2 :=
  ⟨by simp [getGoalRecommendations],
   C8_recommendation_score_nonneg [freshCandidate] true _
     (by simp [getGoalRecommendations])⟩
